import Mathlib

/-!
Verification development for the skalu structural-element detector
(detection of long thin horizontal lines and rectangular frames in
raster pages coming from images or PDF documents).

The Python pipeline is shallowly embedded:
* exact rational arithmetic replaces Python floats (parameters such as
  `min_line_width_ratio` are rationals, `int()` is truncation toward
  zero, `round(x, 3)` is round-half-to-even at the third decimal);
* the external OpenCV calls (`findContours`, `contourArea`,
  `approxPolyDP`, `boundingRect`) are opaque: a detector receives the
  list of contours those calls would produce, each contour carrying its
  area, perimeter, and the polygon approximation data the code queries;
* `list.sort(key=...)` (a stable sort) is embedded as insertion sort by
  the integer key, together with a proof that the result is the unique
  key-sorted, tie-order-preserving rearrangement;
* side effects (JSON artifact written, progress callbacks fired) are
  reified: the produced artifact is an `Option` value and the progress
  calls form an explicit trace, with callback exceptions modelled in an
  `Except` monad and swallowed exactly where the code wraps the call in
  a try/except block.
-/

namespace Skalu

/-- Python `int()` applied to an exact rational: truncation toward zero. -/
def pyInt (q : ℚ) : ℤ := if 0 ≤ q then ⌊q⌋ else ⌈q⌉

theorem pyInt_eq_floor {q : ℚ} (h : 0 ≤ q) : pyInt q = ⌊q⌋ := if_pos h

/-- Python `round` to an integer: round half to even. -/
def pyRound (q : ℚ) : ℤ :=
  if q - ⌊q⌋ < 1/2 then ⌊q⌋
  else if 1/2 < q - ⌊q⌋ then ⌊q⌋ + 1
  else if ⌊q⌋ % 2 = 0 then ⌊q⌋ else ⌊q⌋ + 1

/-- The helper `round3` of skalu.py: `round(float(value), 3)`. -/
def round3 (q : ℚ) : ℚ := (pyRound (q * 1000) : ℚ) / 1000

/-- An axis-aligned bounding box as produced by `cv2.boundingRect`. -/
structure Box where
  x : ℕ
  y : ℕ
  width : ℕ
  height : ℕ
deriving DecidableEq, Repr

/-- An external contour as handed back by `cv2.findContours`, carrying
the quantities the rectangle detector queries about it: `area` is
`cv2.contourArea`, `peri` is `cv2.arcLength(c, True)`, `approxLen eps`
is the vertex count of `cv2.approxPolyDP(c, eps, True)` and
`approxBBox eps` is `cv2.boundingRect` of that approximation. -/
structure Contour where
  area : ℚ
  peri : ℚ
  approxLen : ℚ → ℕ
  approxBBox : ℚ → Box

/-! ### Stable sorting by an integer key

Python `list.sort(key=...)` is a stable sort.  We embed it as insertion
sort with the non-strict key order, and characterise its output: it is
sorted by the key, and restricting it to any fixed key value gives back
the input elements of that key value in their original order.  Those two
properties pin the output down uniquely. -/

/-- Embedding of Python `l.sort(key=...)` (stable, ascending by key). -/
def sortByKey {α : Type*} (key : α → ℤ) (l : List α) : List α :=
  l.insertionSort (fun a b => key a ≤ key b)

/-- The defining property of a stable key sort: sorted output whose
restriction to each key value lists the source elements of that key
value in source order. -/
def IsStableSortByKey {α : Type*} (key : α → ℤ) (src out : List α) : Prop :=
  List.Sorted (fun a b => key a ≤ key b) out ∧
  ∀ k : ℤ, out.filter (fun x => decide (key x = k)) =
    src.filter (fun x => decide (key x = k))

theorem sortByKey_perm {α : Type*} (key : α → ℤ) (l : List α) :
    List.Perm (sortByKey key l) l :=
  List.perm_insertionSort _ l

theorem sortByKey_sorted {α : Type*} (key : α → ℤ) (l : List α) :
    List.Sorted (fun a b => key a ≤ key b) (sortByKey key l) := by
  haveI : IsTotal α (fun a b => key a ≤ key b) := ⟨fun a b => Int.le_total _ _⟩
  haveI : IsTrans α (fun a b => key a ≤ key b) := ⟨fun _ _ _ h1 h2 => le_trans h1 h2⟩
  exact List.sorted_insertionSort _ l

theorem filter_orderedInsert_keyEq {α : Type*} (key : α → ℤ) (k : ℤ) (a : α) :
    ∀ l : List α,
      (l.orderedInsert (fun x y => key x ≤ key y) a).filter
          (fun x => decide (key x = k)) =
        ((a :: l).filter (fun x => decide (key x = k))) := by
  intro l
  induction l with
  | nil => rfl
  | cons b t ih =>
    by_cases hab : key a ≤ key b
    · rw [List.orderedInsert, if_pos hab]
    · rw [List.orderedInsert, if_neg hab]
      have hba : key b < key a := lt_of_not_le hab
      by_cases hbk : key b = k
      · have hak : ¬ key a = k := by omega
        simp [List.filter_cons, ih, hbk, hak]
      · by_cases hak : key a = k
        · simp [List.filter_cons, ih, hbk, hak]
        · simp [List.filter_cons, ih, hbk, hak]

theorem sortByKey_filter_keyEq {α : Type*} (key : α → ℤ) (k : ℤ) :
    ∀ l : List α,
      (sortByKey key l).filter (fun x => decide (key x = k)) =
        l.filter (fun x => decide (key x = k)) := by
  intro l
  induction l with
  | nil => rfl
  | cons a t ih =>
    have h1 : sortByKey key (a :: t) =
        (sortByKey key t).orderedInsert (fun x y => key x ≤ key y) a := rfl
    rw [h1, filter_orderedInsert_keyEq key k a (sortByKey key t)]
    simp only [List.filter_cons, ih]

theorem sortByKey_isStableSortByKey {α : Type*} (key : α → ℤ) (l : List α) :
    IsStableSortByKey key l (sortByKey key l) :=
  ⟨sortByKey_sorted key l, fun k => sortByKey_filter_keyEq key k l⟩

/-- A key-sorted list is determined by its restrictions to each key
value: the stable sort of a list is unique. -/
theorem eq_of_sorted_of_filter_keyEq {α : Type*} (key : α → ℤ) :
    ∀ o₁ o₂ : List α,
      List.Sorted (fun a b => key a ≤ key b) o₁ →
      List.Sorted (fun a b => key a ≤ key b) o₂ →
      (∀ k : ℤ, o₁.filter (fun x => decide (key x = k)) =
        o₂.filter (fun x => decide (key x = k))) →
      o₁ = o₂ := by
  intro o₁
  induction o₁ with
  | nil =>
    intro o₂ _ _ hf
    cases o₂ with
    | nil => rfl
    | cons b t₂ =>
      exfalso
      have h := hf (key b)
      rw [List.filter_nil, List.filter_cons] at h
      simp only [decide_True, if_true, ite_true, decide_eq_true_eq] at h
      exact List.cons_ne_nil _ _ h.symm
  | cons a t₁ ih =>
    intro o₂ hs₁ hs₂ hf
    cases o₂ with
    | nil =>
      exfalso
      have h := hf (key a)
      rw [List.filter_nil, List.filter_cons] at h
      simp only [decide_True, if_true, ite_true, decide_eq_true_eq] at h
      exact List.cons_ne_nil _ _ h
    | cons b t₂ =>
      have hmem₁ : a ∈ b :: t₂ := by
        have h0 : a ∈ (a :: t₁).filter (fun x => decide (key x = key a)) := by
          rw [List.filter_cons]
          simp only [decide_True, if_true, ite_true, decide_eq_true_eq]
          exact List.mem_cons_self _ _
        rw [hf (key a)] at h0
        exact List.mem_of_mem_filter h0
      have hmem₂ : b ∈ a :: t₁ := by
        have h0 : b ∈ (b :: t₂).filter (fun x => decide (key x = key b)) := by
          rw [List.filter_cons]
          simp only [decide_True, if_true, ite_true, decide_eq_true_eq]
          exact List.mem_cons_self _ _
        rw [← hf (key b)] at h0
        exact List.mem_of_mem_filter h0
      have hba : key b ≤ key a := by
        rcases List.mem_cons.mp hmem₁ with h | h
        · rw [h]
        · exact List.rel_of_sorted_cons hs₂ a h
      have hab : key a ≤ key b := by
        rcases List.mem_cons.mp hmem₂ with h | h
        · rw [h]
        · exact List.rel_of_sorted_cons hs₁ b h
      have hkey : key a = key b := le_antisymm hab hba
      have hk := hf (key a)
      rw [List.filter_cons, List.filter_cons] at hk
      simp only [decide_eq_true_eq, hkey, if_true, ite_true, decide_True] at hk
      obtain ⟨hhead, htail⟩ := List.cons.injEq _ _ _ _ ▸ hk
      subst hhead
      have hrest : ∀ k : ℤ,
          t₁.filter (fun x => decide (key x = k)) =
            t₂.filter (fun x => decide (key x = k)) := by
        intro k
        by_cases hk' : key a = k
        · rw [← hk']
          exact htail
        · have h := hf k
          rw [List.filter_cons, List.filter_cons] at h
          simp only [decide_eq_true_eq, hk', if_false, ite_false] at h
          exact h
      exact congrArg (a :: ·) (ih t₂ hs₁.of_cons hs₂.of_cons hrest)

/-! ### Line detector (detect_horizontal_lines, skalu.py lines 11-87)

The morphological preprocessing (grayscale, Otsu and adaptive
thresholds, union, opening) happens inside OpenCV; the detector model
receives the list of bounding boxes of the external contours that
`cv2.findContours` extracts from the opened bitmap, and performs the
geometric filtering and sorting the Python code does on them. -/

/-- Translation of `orig_min_width = int(min_line_width_ratio * w)`. -/
def orig_min_width (min_line_width_ratio : ℚ) (w : ℕ) : ℤ :=
  pyInt (min_line_width_ratio * (w : ℚ))

/-- Translation of `open_width = max(int(orig_min_width * 0.8), 1)`. -/
def open_width (min_line_width_ratio : ℚ) (w : ℕ) : ℤ :=
  max (pyInt ((orig_min_width min_line_width_ratio w : ℚ) * (4/5))) 1

/-- Size `(columns, rows)` of the structuring element passed to
`cv2.getStructuringElement(cv2.MORPH_RECT, (open_width, 1))`. -/
def horiz_kern_size (min_line_width_ratio : ℚ) (w : ℕ) : ℤ × ℤ :=
  (open_width min_line_width_ratio w, 1)

/-- The filtering loop of `detect_horizontal_lines`: keep a contour box
when `cw >= orig_min_width and ch <= max_line_height`, in contour
order. -/
def line_candidates (min_line_width_ratio : ℚ) (max_line_height : ℤ)
    (w : ℕ) (contours : List Box) : List Box :=
  contours.filter fun b =>
    decide (orig_min_width min_line_width_ratio w ≤ (b.width : ℤ) ∧
      (b.height : ℤ) ≤ max_line_height)

/-- Translation of `detect_horizontal_lines`: filter the external
contour boxes of the opened bitmap, then `lines.sort(key=lambda L:
L["y"])` (stable, ascending by y). -/
def detect_horizontal_lines (min_line_width_ratio : ℚ) (max_line_height : ℤ)
    (w : ℕ) (contours : List Box) : List Box :=
  sortByKey (fun b => (b.y : ℤ))
    (line_candidates min_line_width_ratio max_line_height w contours)

/-! ### Rectangle detector (detect_rectangles, skalu.py lines 89-156) -/

/-- The filtering loop of `detect_rectangles`: skip a contour when its
area is outside `[min_area, max_area]`; approximate with tolerance
`0.02 * peri`; keep the bounding box of the approximation when it has
exactly 4 vertices and both sides exceed 5. -/
def rect_candidates (min_rect_area_ratio max_rect_area_ratio : ℚ)
    (h w : ℕ) (contours : List Contour) : List Box :=
  let img_area : ℕ := h * w
  let min_area := pyInt (min_rect_area_ratio * (img_area : ℚ))
  let max_area := pyInt (max_rect_area_ratio * (img_area : ℚ))
  contours.filterMap fun c =>
    if c.area < (min_area : ℚ) ∨ (max_area : ℚ) < c.area then none
    else
      let eps : ℚ := 2/100 * c.peri
      if c.approxLen eps = 4 then
        let b := c.approxBBox eps
        if 5 < b.width ∧ 5 < b.height then some b else none
      else none

/-- Translation of `detect_rectangles`: filter the contours, then
`rectangles.sort(key=lambda r: r["width"] * r["height"], reverse=True)`
(stable, descending by area), embedded as a stable ascending sort on
the negated area. -/
def detect_rectangles (min_rect_area_ratio max_rect_area_ratio : ℚ)
    (h w : ℕ) (contours : List Contour) : List Box :=
  sortByKey (fun b => -((b.width * b.height : ℕ) : ℤ))
    (rect_candidates min_rect_area_ratio max_rect_area_ratio h w contours)

/-- Restatement of the keep condition of the specification for the line
detector, with the threshold written as a floor as the spec does. -/
def line_keep_spec (min_line_width_ratio : ℚ) (max_line_height : ℤ)
    (w : ℕ) (b : Box) : Prop :=
  ⌊min_line_width_ratio * (w : ℚ)⌋ ≤ (b.width : ℤ) ∧
    (b.height : ℤ) ≤ max_line_height

instance (r : ℚ) (mh : ℤ) (w : ℕ) (b : Box) :
    Decidable (line_keep_spec r mh w b) := by
  unfold line_keep_spec; infer_instance

/-- Restatement of the keep condition of the specification for the
rectangle detector: exactly 4 approximation vertices, contour area in
`[⌊min_ratio*width*height⌋, ⌊max_ratio*width*height⌋]`, and both sides
of the bounding box above 5; returns that bounding box. -/
def rect_keep_spec (min_rect_area_ratio max_rect_area_ratio : ℚ)
    (h w : ℕ) (c : Contour) : Option Box :=
  let eps : ℚ := 2/100 * c.peri
  if c.approxLen eps = 4 ∧
      ((⌊min_rect_area_ratio * ((w * h : ℕ) : ℚ)⌋ : ℚ) ≤ c.area ∧
        c.area ≤ (⌊max_rect_area_ratio * ((w * h : ℕ) : ℚ)⌋ : ℚ)) ∧
      5 < (c.approxBBox eps).width ∧ 5 < (c.approxBBox eps).height
  then some (c.approxBBox eps) else none

/-- The specification-side list of kept rectangle boxes. -/
def rect_candidates_spec (min_rect_area_ratio max_rect_area_ratio : ℚ)
    (h w : ℕ) (contours : List Contour) : List Box :=
  contours.filterMap (rect_keep_spec min_rect_area_ratio max_rect_area_ratio h w)

theorem line_candidates_eq_spec (r : ℚ) (mh : ℤ) (w : ℕ)
    (contours : List Box) (hr : 0 ≤ r) :
    line_candidates r mh w contours =
      contours.filter (fun b => decide (line_keep_spec r mh w b)) := by
  unfold line_candidates line_keep_spec
  have h : orig_min_width r w = ⌊r * (w : ℚ)⌋ :=
    pyInt_eq_floor (mul_nonneg hr (by positivity))
  rw [h]

theorem rect_candidates_eq_spec (r₁ r₂ : ℚ) (h w : ℕ)
    (contours : List Contour) (h₁ : 0 ≤ r₁) (h₂ : 0 ≤ r₂) :
    rect_candidates r₁ r₂ h w contours =
      rect_candidates_spec r₁ r₂ h w contours := by
  unfold rect_candidates rect_candidates_spec
  apply List.filterMap_congr
  intro c _
  have e₁ : pyInt (r₁ * ((h * w : ℕ) : ℚ)) = ⌊r₁ * ((w * h : ℕ) : ℚ)⌋ := by
    rw [Nat.mul_comm h w]
    exact pyInt_eq_floor (mul_nonneg h₁ (by positivity))
  have e₂ : pyInt (r₂ * ((h * w : ℕ) : ℚ)) = ⌊r₂ * ((w * h : ℕ) : ℚ)⌋ := by
    rw [Nat.mul_comm h w]
    exact pyInt_eq_floor (mul_nonneg h₂ (by positivity))
  rw [rect_keep_spec, e₁, e₂]
  by_cases ha : c.area < ((⌊r₁ * ((w * h : ℕ) : ℚ)⌋ : ℤ) : ℚ) ∨
      ((⌊r₂ * ((w * h : ℕ) : ℚ)⌋ : ℤ) : ℚ) < c.area
  · rw [if_pos ha, if_neg]
    intro hcontra
    rcases ha with ha | ha
    · exact absurd hcontra.2.1.1 (not_le.mpr ha)
    · exact absurd hcontra.2.1.2 (not_le.mpr ha)
  · rw [if_neg ha]
    push_neg at ha
    by_cases h4 : c.approxLen (2/100 * c.peri) = 4
    · rw [if_pos h4]
      by_cases h5 : 5 < (c.approxBBox (2/100 * c.peri)).width ∧
          5 < (c.approxBBox (2/100 * c.peri)).height
      · rw [if_pos h5, if_pos ⟨h4, ⟨ha.1, ha.2⟩, h5⟩]
      · rw [if_neg h5, if_neg]
        intro hcontra
        exact h5 hcontra.2.2
    · rw [if_neg h4, if_neg]
      intro hcontra
      exact h4 hcontra.1

/-! ### PDF page geometry (process_pdf, skalu.py lines 276-330) -/

/-- A PyMuPDF rectangle (crop box or media box), in points. -/
structure Rect where
  x0 : ℚ
  y0 : ℚ
  x1 : ℚ
  y1 : ℚ
deriving DecidableEq

def Rect.width (r : Rect) : ℚ := r.x1 - r.x0

def Rect.height (r : Rect) : ℚ := r.y1 - r.y0

/-- Translation of the `crop_is_empty` test of process_pdf: the crop
box has nonpositive width or height, or coincides with the media box. -/
def crop_is_empty (crop media : Rect) : Prop :=
  crop.width ≤ 0 ∨ crop.height ≤ 0 ∨ crop = media

instance (c m : Rect) : Decidable (crop_is_empty c m) := by
  unfold crop_is_empty; infer_instance

/-- Translation of `effective_bounds = media_box if crop_is_empty else
crop_box`. -/
def effective_bounds (crop media : Rect) : Rect :=
  if crop_is_empty crop media then media else crop

/-- Restatement of the specification: the crop box is used exactly when
it has positive width and height and differs from the media box. -/
def effective_bounds_spec (crop media : Rect) : Rect :=
  if 0 < crop.width ∧ 0 < crop.height ∧ crop ≠ media then crop else media

/-- The rendering request process_pdf issues for a page: magnification
matrix scale, the box used as render window, and whether the page
origin is temporarily redefined via `page.set_cropbox(crop_box)`. -/
structure RenderPlan where
  scale : ℚ
  window : Rect
  cropOriginSet : Bool
deriving DecidableEq

/-- Translation of the rendering branch of process_pdf: with an empty
or redundant crop box the page is rendered as is (media box window);
otherwise the crop box is installed as the page bounds and used as the
window.  The magnification is the fixed `fitz.Matrix(2.0, 2.0)`. -/
def renderPlan (crop media : Rect) : RenderPlan :=
  if crop_is_empty crop media then
    { scale := 2, window := media, cropOriginSet := false }
  else
    { scale := 2, window := crop, cropOriginSet := true }

/-! ### Aggregation over PDF pages (process_pdf, skalu.py lines 228-434)

The fitz and OpenCV calls are opaque: a `PdfPage` carries its two boxes
and, when `cv2.imdecode` succeeds on the rendered pixmap, the resulting
`RenderedImage` with the pixmap dimensions and the contour lists the
two detectors would receive for that page.  A page whose `rendered` is
`none` models the `img is None` branch that skips the page.  The JSON
artifact is reified as the `Option DocumentResult` component of the
result: `none` means no file is written. -/

/-- The detection parameters of skalu (CLI defaults 0.2, 10, 0.001, 0.5). -/
structure DetectionParams where
  min_line_width_ratio : ℚ
  max_line_height : ℤ
  min_rect_area_ratio : ℚ
  max_rect_area_ratio : ℚ
deriving DecidableEq

/-- A successfully decoded page raster: pixmap dimensions plus the
opaque contour extractions feeding the two detectors. -/
structure RenderedImage where
  width : ℕ
  height : ℕ
  lineContours : List Box
  rectContours : List Contour

/-- One page of an open PDF document. -/
structure PdfPage where
  cropbox : Rect
  mediabox : Rect
  rendered : Option RenderedImage

/-- The dpi record of the output JSON. -/
structure Dpi where
  x : ℚ
  y : ℚ
deriving DecidableEq

/-- One entry of the `pages` array of the output JSON.  A `none` field
models a key that is absent from the emitted object. -/
structure PageResult where
  page : ℕ
  width : ℕ
  height : ℕ
  horizontal_lines : Option (List Box)
  rectangles : Option (List Box)
deriving DecidableEq

/-- The top-level JSON document written by process_pdf. -/
structure DocumentResult where
  pages : List PageResult
  dpi : Dpi
  detection_params : DetectionParams
deriving DecidableEq

/-- The DPI pair computed from a page: `rendered_px / (bounds_pt / 72)`
on each axis, rounded to 3 decimals by `round3`. -/
def pageDpi (pg : PdfPage) (img : RenderedImage) : Dpi :=
  let eb := effective_bounds pg.cropbox pg.mediabox
  { x := round3 ((img.width : ℚ) / (eb.width / 72)),
    y := round3 ((img.height : ℚ) / (eb.height / 72)) }

/-- The page entry built for a contributing page (0-based index `i`):
page number `i+1`, pixmap dimensions, and the two detection fields,
each present only when its list is nonempty. -/
def mkPageResult (i : ℕ) (img : RenderedImage) (lines rects : List Box) :
    PageResult :=
  { page := i + 1, width := img.width, height := img.height,
    horizontal_lines := if lines = [] then none else some lines,
    rectangles := if rects = [] then none else some rects }

/-- The per-page detections of process_pdf on a decoded page. -/
def pageLines (P : DetectionParams) (img : RenderedImage) : List Box :=
  detect_horizontal_lines P.min_line_width_ratio P.max_line_height
    img.width img.lineContours

def pageRects (P : DetectionParams) (img : RenderedImage) : List Box :=
  detect_rectangles P.min_rect_area_ratio P.max_rect_area_ratio
    img.height img.width img.rectContours

/-- The page loop of process_pdf (index counter `i` stands for
`page_num`): skip undecodable pages; compute the document DPI from the
first decoded page only; append a page entry only when at least one
detection list is nonempty. -/
def pdfLoop (P : DetectionParams) :
    ℕ → List PdfPage → Option Dpi → Option Dpi × List PageResult
  | _, [], d => (d, [])
  | i, pg :: rest, d =>
    match pg.rendered with
    | none => pdfLoop P (i + 1) rest d
    | some img =>
      let d' := match d with
        | some v => some v
        | none => some (pageDpi pg img)
      let lines := pageLines P img
      let rects := pageRects P img
      let out := pdfLoop P (i + 1) rest d'
      if lines = [] ∧ rects = [] then out
      else (out.1, mkPageResult i img lines rects :: out.2)

/-- The JSON document process_pdf assembles after the loop: the sparse
pages array, the computed DPI with fallback `round3 144` on both axes,
and the detection parameters. -/
def buildDocumentResult (P : DetectionParams) (pgs : List PdfPage) :
    DocumentResult :=
  let out := pdfLoop P 0 pgs none
  { pages := out.2,
    dpi := out.1.getD { x := round3 144, y := round3 144 },
    detection_params := P }

/-- Translation of process_pdf, with the `fitz.open` outcome as input:
`none` (the open raised) returns `False` having written nothing, and
otherwise the document result is built and written. -/
def process_pdf (P : DetectionParams) (doc : Option (List PdfPage)) :
    Bool × Option DocumentResult :=
  match doc with
  | none => (false, none)
  | some pgs => (true, some (buildDocumentResult P pgs))

/-! ### Progress callbacks (skalu.py lines 265-269, 399-403, 428-432,
477-481, 527-531)

A progress callback may raise; the code wraps every invocation in a
try/except block that discards the exception.  The callback is modelled
as a function into `Except E Unit`, the guarded call as `tryCall`, and
processing is threaded through `Except` so that an unswallowed
exception would abort it.  Each run additionally returns the trace of
`(done, total)` arguments the callback was invoked with. -/

/-- Translation of `try: progress_callback(a, b) except Exception:
pass`. -/
def tryCall {E : Type} (cb : ℕ → ℕ → Except E Unit) (a b : ℕ) :
    Except E Unit :=
  match cb a b with
  | .ok _ => .ok ()
  | .error _ => .ok ()

theorem tryCall_ok {E : Type} (cb : ℕ → ℕ → Except E Unit) (a b : ℕ) :
    tryCall cb a b = .ok () := by
  unfold tryCall
  cases cb a b <;> rfl

/-- The page loop of process_pdf with the progress callback: pages that
fail to decode are skipped before the callback call, so only decoded
pages trigger an invocation, with arguments `(page_num + 1, total)`. -/
def pdfLoopRun {E : Type} (P : DetectionParams)
    (cb : ℕ → ℕ → Except E Unit) (N : ℕ) :
    ℕ → List PdfPage → Option Dpi →
      Except E (Option Dpi × List PageResult × List (ℕ × ℕ))
  | _, [], d => .ok (d, [], [])
  | i, pg :: rest, d =>
    match pg.rendered with
    | none => pdfLoopRun P cb N (i + 1) rest d
    | some img =>
      let d' := match d with
        | some v => some v
        | none => some (pageDpi pg img)
      let lines := pageLines P img
      let rects := pageRects P img
      match tryCall cb (i + 1) N with
      | .error e => .error e
      | .ok _ =>
        match pdfLoopRun P cb N (i + 1) rest d' with
        | .error e => .error e
        | .ok (dOut, ps, tr) =>
          if lines = [] ∧ rects = [] then .ok (dOut, ps, (i + 1, N) :: tr)
          else .ok (dOut, mkPageResult i img lines rects :: ps, (i + 1, N) :: tr)

/-- Translation of process_pdf with its progress callback: one call
`(0, total)` after the document opens, one call after each decoded
page, and a final `(total, total)` call after the JSON is written. -/
def process_pdf_run {E : Type} (P : DetectionParams)
    (cb : ℕ → ℕ → Except E Unit) (doc : Option (List PdfPage)) :
    Except E (Bool × Option DocumentResult × List (ℕ × ℕ)) :=
  match doc with
  | none => .ok (false, none, [])
  | some pgs =>
    let N := pgs.length
    match tryCall cb 0 N with
    | .error e => .error e
    | .ok _ =>
      match pdfLoopRun P cb N 0 pgs none with
      | .error e => .error e
      | .ok (d, ps, tr) =>
        match tryCall cb N N with
        | .error e => .error e
        | .ok _ =>
          .ok (true,
            some { pages := ps,
                   dpi := d.getD { x := round3 144, y := round3 144 },
                   detection_params := P },
            (0, N) :: (tr ++ [(N, N)]))

/-- The progress calls of the page loop: `(page_num + 1, total)` for
each decoded page. -/
def pdfTraceLoop (N : ℕ) : ℕ → List PdfPage → List (ℕ × ℕ)
  | _, [] => []
  | i, pg :: rest =>
    match pg.rendered with
    | none => pdfTraceLoop N (i + 1) rest
    | some _ => (i + 1, N) :: pdfTraceLoop N (i + 1) rest

/-- The full progress trace of a process_pdf run. -/
def pdfTrace : Option (List PdfPage) → List (ℕ × ℕ)
  | none => []
  | some pgs =>
    (0, pgs.length) :: (pdfTraceLoop pgs.length 0 pgs ++ [(pgs.length, pgs.length)])

/-! ### Single images and folders (skalu.py lines 436-627) -/

/-- A decoded single image: `cv2.imread` dimensions plus the opaque
contour extractions feeding the detectors. -/
structure LoadedImage where
  width : ℕ
  height : ℕ
  lineContours : List Box
  rectContours : List Contour

/-- An image file on disk: the `cv2.imread` outcome (`none` when the
decoder fails) and the metadata DPI pair `get_image_dpi` returns for
it (already defaulted to `(0, 0)` on missing or unreadable metadata). -/
structure ImageFile where
  load : Option LoadedImage
  dpi_x : ℤ
  dpi_y : ℤ

/-- The per-image object emitted for a single image: metadata DPI and
dimensions always present, each detection field present only when its
list is nonempty. -/
structure ImageResult where
  dpi_x : ℤ
  dpi_y : ℤ
  width : ℕ
  height : ℕ
  horizontal_lines : Option (List Box)
  rectangles : Option (List Box)
deriving DecidableEq

def imageLines (P : DetectionParams) (img : LoadedImage) : List Box :=
  detect_horizontal_lines P.min_line_width_ratio P.max_line_height
    img.width img.lineContours

def imageRects (P : DetectionParams) (img : LoadedImage) : List Box :=
  detect_rectangles P.min_rect_area_ratio P.max_rect_area_ratio
    img.height img.width img.rectContours

/-- The result object process_single_image builds for a decoded image. -/
def process_single_image_core (P : DetectionParams) (img : LoadedImage)
    (dx dy : ℤ) : ImageResult :=
  let lines := imageLines P img
  let rects := imageRects P img
  { dpi_x := dx, dpi_y := dy, width := img.width, height := img.height,
    horizontal_lines := if lines = [] then none else some lines,
    rectangles := if rects = [] then none else some rects }

/-- Translation of process_single_image without the callback: `False`
and no artifact when the image cannot be decoded. -/
def process_single_image (P : DetectionParams) (file : ImageFile) :
    Bool × Option ImageResult :=
  match file.load with
  | none => (false, none)
  | some img => (true, some (process_single_image_core P img file.dpi_x file.dpi_y))

/-- Translation of process_single_image with its progress callback:
`(0, 1)` before detection and `(1, 1)` after the JSON is written. -/
def process_single_image_run {E : Type} (P : DetectionParams)
    (cb : ℕ → ℕ → Except E Unit) (file : ImageFile) :
    Except E (Bool × Option ImageResult × List (ℕ × ℕ)) :=
  match file.load with
  | none => .ok (false, none, [])
  | some img =>
    match tryCall cb 0 1 with
    | .error e => .error e
    | .ok _ =>
      let res := process_single_image_core P img file.dpi_x file.dpi_y
      match tryCall cb 1 1 with
      | .error e => .error e
      | .ok _ => .ok (true, some res, [(0, 1), (1, 1)])

/-- The progress trace of a process_single_image run. -/
def imageTrace (file : ImageFile) : List (ℕ × ℕ) :=
  match file.load with
  | none => []
  | some _ => [(0, 1), (1, 1)]

/-- One directory entry of a folder run: file name and its load
outcome. -/
structure FolderEntry where
  name : String
  file : ImageFile

/-- The per-image object emitted in folder mode: dimensions always
present, metadata DPI values present only when nonzero, detection
fields present only when nonempty. -/
structure FolderImageResult where
  width : ℕ
  height : ℕ
  dpi_x : Option ℤ
  dpi_y : Option ℤ
  horizontal_lines : Option (List Box)
  rectangles : Option (List Box)
deriving DecidableEq

def mkFolderImageResult (P : DetectionParams) (img : LoadedImage)
    (dx dy : ℤ) : FolderImageResult :=
  let lines := imageLines P img
  let rects := imageRects P img
  { width := img.width, height := img.height,
    dpi_x := if dx = 0 then none else some dx,
    dpi_y := if dy = 0 then none else some dy,
    horizontal_lines := if lines = [] then none else some lines,
    rectangles := if rects = [] then none else some rects }

/-- The top-level JSON document written in folder mode. -/
structure FolderResult where
  result : List (String × FolderImageResult)
  detection_params : DetectionParams
deriving DecidableEq

/-- Translation of process_folder over the sorted directory listing:
failure with no artifact when the listing is empty, unreadable entries
skipped.  The function accepts no progress callback, so the trace of
progress invocations of a folder run is empty. -/
def process_folder (P : DetectionParams) (entries : List FolderEntry) :
    Bool × Option FolderResult × List (ℕ × ℕ) :=
  match entries with
  | [] => (false, none, [])
  | _ :: _ =>
    let items := entries.filterMap fun e =>
      match e.file.load with
      | none => none
      | some img =>
        some (e.name, mkFolderImageResult P img e.file.dpi_x e.file.dpi_y)
    (true, some { result := items, detection_params := P }, [])

/-! ### Claim theorems -/

/-- C1: detect_horizontal_lines returns exactly those external contour
boxes of the opened bitmap whose width is at least
`floor(min_line_width_ratio * image_width)` (the original, non-relaxed
threshold) and whose height is at most `max_line_height`, and the list
is sorted by y ascending with a stable sort (ties keep detection
order). -/
theorem detect_horizontal_lines_correct (r : ℚ) (mh : ℤ) (w : ℕ)
    (contours : List Box) (hr : 0 ≤ r) :
    List.Perm (detect_horizontal_lines r mh w contours)
      (contours.filter (fun b => decide (line_keep_spec r mh w b))) ∧
    List.Sorted (fun b₁ b₂ => b₁.y ≤ b₂.y)
      (detect_horizontal_lines r mh w contours) ∧
    IsStableSortByKey (fun b => (b.y : ℤ))
      (contours.filter (fun b => decide (line_keep_spec r mh w b)))
      (detect_horizontal_lines r mh w contours) := by
  have hc := line_candidates_eq_spec r mh w contours hr
  unfold detect_horizontal_lines
  rw [hc]
  refine ⟨sortByKey_perm _ _, ?_, sortByKey_isStableSortByKey _ _⟩
  have hs := sortByKey_sorted (fun b : Box => (b.y : ℤ))
    (contours.filter (fun b => decide (line_keep_spec r mh w b)))
  exact hs.imp (fun h => by exact_mod_cast h)

theorem detect_horizontal_lines_correct_witness :
    0 ≤ (1/5 : ℚ) ∧
      List.Perm (detect_horizontal_lines (1/5) 10 10 [Box.mk 0 2 9 1])
        ([Box.mk 0 2 9 1].filter
          (fun b => decide (line_keep_spec (1/5) 10 10 b))) :=
  ⟨by norm_num,
    (detect_horizontal_lines_correct (1/5) 10 10 [Box.mk 0 2 9 1]
      (by norm_num)).1⟩

/-- C2: detect_rectangles keeps a contour iff its polygon approximation
at tolerance 2 percent of the perimeter has exactly 4 vertices, its
contour area lies within the floored area bounds, and its bounding box
has width and height above 5; the kept boxes are sorted by area
descending with a stable sort. -/
theorem detect_rectangles_correct (r₁ r₂ : ℚ) (h w : ℕ)
    (cs : List Contour) (h₁ : 0 ≤ r₁) (h₂ : 0 ≤ r₂) :
    List.Perm (detect_rectangles r₁ r₂ h w cs)
      (rect_candidates_spec r₁ r₂ h w cs) ∧
    List.Sorted (fun b₁ b₂ => b₂.width * b₂.height ≤ b₁.width * b₁.height)
      (detect_rectangles r₁ r₂ h w cs) ∧
    IsStableSortByKey (fun b => -((b.width * b.height : ℕ) : ℤ))
      (rect_candidates_spec r₁ r₂ h w cs)
      (detect_rectangles r₁ r₂ h w cs) := by
  have hc := rect_candidates_eq_spec r₁ r₂ h w cs h₁ h₂
  unfold detect_rectangles
  rw [hc]
  refine ⟨sortByKey_perm _ _, ?_, sortByKey_isStableSortByKey _ _⟩
  have hs := sortByKey_sorted (fun b : Box => -((b.width * b.height : ℕ) : ℤ))
    (rect_candidates_spec r₁ r₂ h w cs)
  refine hs.imp (fun h => ?_)
  have h' := neg_le_neg_iff.mp h
  exact_mod_cast h'

theorem detect_rectangles_correct_witness :
    0 ≤ (1/10 : ℚ) ∧ 0 ≤ (1/2 : ℚ) ∧
      List.Perm
        (detect_rectangles (1/10) (1/2) 10 10
          [Contour.mk 50 100 (fun _ => 4) (fun _ => Box.mk 0 0 10 10)])
        (rect_candidates_spec (1/10) (1/2) 10 10
          [Contour.mk 50 100 (fun _ => 4) (fun _ => Box.mk 0 0 10 10)]) :=
  ⟨by norm_num, by norm_num,
    (detect_rectangles_correct (1/10) (1/2) 10 10
      [Contour.mk 50 100 (fun _ => 4) (fun _ => Box.mk 0 0 10 10)]
      (by norm_num) (by norm_num)).1⟩

/-- C3 counterexample: at image width 5 and ratio 1/5 the original
minimum width is 1, the claimed kernel width
`floor(min_width_px * 0.8)` is 0, but the code clamps the kernel width
to at least 1, so the kernel is `(1, 1)`, not `(0, 1)`. -/
theorem open_kernel_claim_cex :
    horiz_kern_size (1/5) 5 ≠
      (⌊((orig_min_width (1/5) 5 : ℤ) : ℚ) * (4/5)⌋, 1) := by
  have h1 : orig_min_width (1/5) 5 = 1 := by
    unfold orig_min_width pyInt
    rw [if_pos (by norm_num)]
    norm_num
  have h0 : (⌊((1 : ℤ) : ℚ) * (4/5)⌋ : ℤ) = 0 := by
    rw [show (((1 : ℤ) : ℚ) * (4/5)) = 4/5 by norm_num]
    rw [Int.floor_eq_zero_iff]
    constructor <;> norm_num
  have h3 : horiz_kern_size (1/5) 5 = (1, 1) := by
    unfold horiz_kern_size open_width pyInt
    rw [h1]
    rw [if_pos (by norm_num : (0:ℚ) ≤ ((1:ℤ):ℚ) * (4/5))]
    rw [h0]
    decide
  rw [h3, h1, h0]
  decide

/-- C3 amended: the opening kernel is purely horizontal with height 1,
and its width is `max(floor(min_width_px * 0.8), 1)` — the floored 80
percent width clamped below by 1. -/
theorem open_kernel_spec (r : ℚ) (w : ℕ) (hr : 0 ≤ r) :
    horiz_kern_size r w =
      (max ⌊((orig_min_width r w : ℤ) : ℚ) * (4/5)⌋ 1, 1) := by
  unfold horiz_kern_size open_width
  have h0 : (0 : ℚ) ≤ ((orig_min_width r w : ℤ) : ℚ) := by
    have h1 : 0 ≤ orig_min_width r w := by
      unfold orig_min_width
      rw [pyInt_eq_floor (mul_nonneg hr (by positivity))]
      exact Int.floor_nonneg.mpr (mul_nonneg hr (by positivity))
    exact_mod_cast h1
  rw [pyInt_eq_floor (mul_nonneg h0 (by norm_num))]

theorem open_kernel_spec_witness :
    0 ≤ (1/5 : ℚ) ∧
      horiz_kern_size (1/5) 5 =
        (max ⌊((orig_min_width (1/5) 5 : ℤ) : ℚ) * (4/5)⌋ 1, 1) :=
  ⟨by norm_num, open_kernel_spec (1/5) 5 (by norm_num)⟩

/-- C6: the effective render bounds are the crop box exactly when it
has positive width and height and differs from the media box, and the
media box otherwise; the page is rendered at the fixed 2.0
magnification with those bounds as the render window, the page origin
being redefined to the crop box exactly when the crop box is used. -/
theorem render_bounds_spec (c m : Rect) :
    effective_bounds c m = effective_bounds_spec c m ∧
    renderPlan c m =
      { scale := 2, window := effective_bounds_spec c m,
        cropOriginSet := decide (0 < c.width ∧ 0 < c.height ∧ c ≠ m) } := by
  have hiff : ¬ crop_is_empty c m ↔ (0 < c.width ∧ 0 < c.height ∧ c ≠ m) := by
    unfold crop_is_empty
    rw [not_or, not_or, not_le, not_le]
  by_cases hce : crop_is_empty c m
  · have h2 : ¬ (0 < c.width ∧ 0 < c.height ∧ c ≠ m) :=
      fun hx => (hiff.mpr hx) hce
    simp [effective_bounds, effective_bounds_spec, renderPlan, hce, h2]
  · have h2 := hiff.mp hce
    simp [effective_bounds, effective_bounds_spec, renderPlan, hce, h2]

/-- C9: the pipeline is deterministic.  Any list that is a stable
key-sorted arrangement of the kept candidates coincides with the
detector output, for both detectors — so two runs (or any two
implementations honouring the stable-sort contract) produce identical
ordering — and rerunning process_pdf on the same input gives the same
value. -/
theorem pipeline_deterministic :
    (∀ (r : ℚ) (mh : ℤ) (w : ℕ) (cs : List Box) (out : List Box),
        IsStableSortByKey (fun b => (b.y : ℤ)) (line_candidates r mh w cs) out →
        out = detect_horizontal_lines r mh w cs) ∧
    (∀ (r₁ r₂ : ℚ) (h w : ℕ) (cs : List Contour) (out : List Box),
        IsStableSortByKey (fun b => -((b.width * b.height : ℕ) : ℤ))
          (rect_candidates r₁ r₂ h w cs) out →
        out = detect_rectangles r₁ r₂ h w cs) ∧
    (∀ (P : DetectionParams) (doc : Option (List PdfPage)),
        process_pdf P doc = process_pdf P doc) := by
  refine ⟨?_, ?_, fun _ _ => rfl⟩
  · intro r mh w cs out hout
    have hsort := sortByKey_isStableSortByKey (fun b : Box => (b.y : ℤ))
      (line_candidates r mh w cs)
    exact eq_of_sorted_of_filter_keyEq _ out _ hout.1 hsort.1
      (fun k => (hout.2 k).trans (hsort.2 k).symm)
  · intro r₁ r₂ h w cs out hout
    have hsort := sortByKey_isStableSortByKey
      (fun b : Box => -((b.width * b.height : ℕ) : ℤ))
      (rect_candidates r₁ r₂ h w cs)
    exact eq_of_sorted_of_filter_keyEq _ out _ hout.1 hsort.1
      (fun k => (hout.2 k).trans (hsort.2 k).symm)

theorem pipeline_deterministic_witness :
    [Box.mk 0 2 9 1, Box.mk 0 5 9 1] =
      detect_horizontal_lines (1/2) 10 10 [Box.mk 0 2 9 1, Box.mk 0 5 9 1] := by
  have horig : orig_min_width (1/2) 10 = 5 := by
    unfold orig_min_width pyInt
    rw [if_pos (by push_cast; norm_num)]
    push_cast
    norm_num
  have he : line_candidates (1/2) 10 10 [Box.mk 0 2 9 1, Box.mk 0 5 9 1] =
      [Box.mk 0 2 9 1, Box.mk 0 5 9 1] := by
    unfold line_candidates
    simp only [horig]
    decide
  exact pipeline_deterministic.1 (1/2) 10 10 _ _
    ⟨by decide, fun k => by rw [he]⟩

/-- Invariant of the process_pdf page loop: every emitted page entry
has no empty detection field and at least one detection field
present. -/
theorem pdfLoop_sparse (P : DetectionParams) :
    ∀ (pgs : List PdfPage) (i : ℕ) (d : Option Dpi) (pr : PageResult),
      pr ∈ (pdfLoop P i pgs d).2 →
      pr.horizontal_lines ≠ some [] ∧ pr.rectangles ≠ some [] ∧
        ¬(pr.horizontal_lines = none ∧ pr.rectangles = none) := by
  intro pgs
  induction pgs with
  | nil => intro i d pr hpr; simp [pdfLoop] at hpr
  | cons pg rest ih =>
    intro i d pr hpr
    cases hrend : pg.rendered with
    | none =>
      simp only [pdfLoop, hrend] at hpr
      exact ih (i + 1) d pr hpr
    | some img =>
      simp only [pdfLoop, hrend] at hpr
      by_cases hl : pageLines P img = [] ∧ pageRects P img = []
      · rw [if_pos hl] at hpr
        exact ih (i + 1) _ pr hpr
      · rw [if_neg hl] at hpr
        rcases List.mem_cons.mp hpr with hpr | hpr
        · subst hpr
          refine ⟨?_, ?_, ?_⟩
          · by_cases hll : pageLines P img = [] <;> simp [mkPageResult, hll]
          · by_cases hrr : pageRects P img = [] <;> simp [mkPageResult, hrr]
          · by_cases hll : pageLines P img = []
            · have hrr : ¬ pageRects P img = [] := fun hc => hl ⟨hll, hc⟩
              simp [mkPageResult, hll, hrr]
            · simp [mkPageResult, hll]
        · exact ih (i + 1) _ pr hpr

/-- C4: detection fields are omitted (never emitted as an empty list)
when the detection list is empty, and a PDF page with zero lines and
zero rectangles does not appear in the pages array at all. -/
theorem sparse_output (P : DetectionParams) :
    (∀ (pgs : List PdfPage) (pr : PageResult),
        pr ∈ (buildDocumentResult P pgs).pages →
        pr.horizontal_lines ≠ some [] ∧ pr.rectangles ≠ some [] ∧
          ¬(pr.horizontal_lines = none ∧ pr.rectangles = none)) ∧
    (∀ (img : LoadedImage) (dx dy : ℤ),
        ((process_single_image_core P img dx dy).horizontal_lines = none ↔
          imageLines P img = []) ∧
        (process_single_image_core P img dx dy).horizontal_lines ≠ some [] ∧
        ((process_single_image_core P img dx dy).rectangles = none ↔
          imageRects P img = []) ∧
        (process_single_image_core P img dx dy).rectangles ≠ some []) := by
  constructor
  · intro pgs pr hpr
    exact pdfLoop_sparse P pgs 0 none pr hpr
  · intro img dx dy
    refine ⟨?_, ?_, ?_, ?_⟩
    · by_cases hll : imageLines P img = [] <;>
        simp [process_single_image_core, hll]
    · by_cases hll : imageLines P img = [] <;>
        simp [process_single_image_core, hll]
    · by_cases hrr : imageRects P img = [] <;>
        simp [process_single_image_core, hrr]
    · by_cases hrr : imageRects P img = [] <;>
        simp [process_single_image_core, hrr]

theorem sparse_output_witness :
    (PageResult.mk 1 10 10 (some [Box.mk 0 0 5 1]) none).horizontal_lines ≠
        some [] ∧
      (PageResult.mk 1 10 10 (some [Box.mk 0 0 5 1]) none).rectangles ≠
        some [] ∧
      ¬((PageResult.mk 1 10 10 (some [Box.mk 0 0 5 1]) none).horizontal_lines =
          none ∧
        (PageResult.mk 1 10 10 (some [Box.mk 0 0 5 1]) none).rectangles =
          none) := by
  have horig : orig_min_width (1/5) 10 = 2 := by
    unfold orig_min_width pyInt
    rw [if_pos (by push_cast; norm_num)]
    push_cast
    norm_num
  have hdet : pageLines (DetectionParams.mk (1/5) 10 (1/1000) (1/2))
      (RenderedImage.mk 10 10 [Box.mk 0 0 5 1] []) = [Box.mk 0 0 5 1] := by
    unfold pageLines detect_horizontal_lines line_candidates
    simp only [horig]
    decide
  have hrects : pageRects (DetectionParams.mk (1/5) 10 (1/1000) (1/2))
      (RenderedImage.mk 10 10 [Box.mk 0 0 5 1] []) = [] := rfl
  have hpages :
      (buildDocumentResult (DetectionParams.mk (1/5) 10 (1/1000) (1/2))
        [PdfPage.mk (Rect.mk 0 0 72 72) (Rect.mk 0 0 72 72)
          (some (RenderedImage.mk 10 10 [Box.mk 0 0 5 1] []))]).pages =
      [PageResult.mk 1 10 10 (some [Box.mk 0 0 5 1]) none] := by
    simp only [buildDocumentResult, pdfLoop, hdet, hrects, mkPageResult]
    decide
  refine (sparse_output (DetectionParams.mk (1/5) 10 (1/1000) (1/2))).1
    [PdfPage.mk (Rect.mk 0 0 72 72) (Rect.mk 0 0 72 72)
      (some (RenderedImage.mk 10 10 [Box.mk 0 0 5 1] []))]
    (PageResult.mk 1 10 10 (some [Box.mk 0 0 5 1]) none) ?_
  rw [hpages]
  exact List.mem_singleton.mpr rfl

/-- A computed DPI is never overwritten by later pages of the loop. -/
theorem pdfLoop_dpi_some (P : DetectionParams) :
    ∀ (pgs : List PdfPage) (i : ℕ) (d : Dpi),
      (pdfLoop P i pgs (some d)).1 = some d := by
  intro pgs
  induction pgs with
  | nil => intro i d; rfl
  | cons pg rest ih =>
    intro i d
    cases hrend : pg.rendered with
    | none =>
      simp only [pdfLoop, hrend]
      exact ih (i + 1) d
    | some img =>
      simp only [pdfLoop, hrend]
      by_cases hl : pageLines P img = [] ∧ pageRects P img = []
      · rw [if_pos hl]
        exact ih (i + 1) d
      · rw [if_neg hl]
        exact ih (i + 1) d

/-- Pages that fail to decode contribute nothing to the loop except an
index shift. -/
theorem pdfLoop_skip_undecoded (P : DetectionParams) :
    ∀ (pre : List PdfPage), (∀ q ∈ pre, q.rendered = none) →
      ∀ (rest : List PdfPage) (i : ℕ) (d : Option Dpi),
        pdfLoop P i (pre ++ rest) d = pdfLoop P (i + pre.length) rest d := by
  intro pre
  induction pre with
  | nil => intro _ rest i d; simp
  | cons q pre ih =>
    intro h rest i d
    have hq : q.rendered = none := h q (List.mem_cons_self q pre)
    have h' : ∀ q' ∈ pre, q'.rendered = none :=
      fun q' hq' => h q' (List.mem_cons_of_mem q hq')
    rw [List.cons_append]
    simp only [pdfLoop, hq]
    rw [ih h' rest (i + 1) d]
    have harith : i + 1 + pre.length = i + (q :: pre).length := by
      simp [List.length_cons]
      omega
    rw [harith]

/-- C5: the document DPI is computed once, from the first page whose
raster decodes, as rendered pixels divided by effective bounds in
inches, rounded to 3 decimals by round3, and that single pair is used
for the whole document regardless of the remaining pages. -/
theorem pdf_dpi_first_decoded (P : DetectionParams)
    (pre post : List PdfPage) (pg : PdfPage) (img : RenderedImage)
    (hpre : ∀ q ∈ pre, q.rendered = none) (hpg : pg.rendered = some img) :
    (buildDocumentResult P (pre ++ pg :: post)).dpi =
      { x := round3 ((img.width : ℚ) /
          ((effective_bounds pg.cropbox pg.mediabox).width / 72)),
        y := round3 ((img.height : ℚ) /
          ((effective_bounds pg.cropbox pg.mediabox).height / 72)) } := by
  have h1 : (pdfLoop P 0 (pre ++ pg :: post) none).1 = some (pageDpi pg img) := by
    rw [pdfLoop_skip_undecoded P pre hpre (pg :: post) 0 none]
    simp only [pdfLoop, hpg]
    by_cases hl : pageLines P img = [] ∧ pageRects P img = []
    · rw [if_pos hl]
      exact pdfLoop_dpi_some P post _ _
    · rw [if_neg hl]
      exact pdfLoop_dpi_some P post _ _
  simp only [buildDocumentResult]
  rw [h1]
  rfl

theorem pdf_dpi_first_decoded_witness :
    (buildDocumentResult (DetectionParams.mk (1/5) 10 (1/1000) (1/2))
        ([PdfPage.mk (Rect.mk 0 0 72 144) (Rect.mk 0 0 72 144) none] ++
          PdfPage.mk (Rect.mk 0 0 72 144) (Rect.mk 0 0 72 144)
            (some (RenderedImage.mk 100 100 [] [])) :: [])).dpi =
      { x := round3 ((((100 : ℕ)) : ℚ) /
          ((effective_bounds (Rect.mk 0 0 72 144) (Rect.mk 0 0 72 144)).width / 72)),
        y := round3 ((((100 : ℕ)) : ℚ) /
          ((effective_bounds (Rect.mk 0 0 72 144) (Rect.mk 0 0 72 144)).height / 72)) } :=
  pdf_dpi_first_decoded (DetectionParams.mk (1/5) 10 (1/1000) (1/2))
    [PdfPage.mk (Rect.mk 0 0 72 144) (Rect.mk 0 0 72 144) none] []
    (PdfPage.mk (Rect.mk 0 0 72 144) (Rect.mk 0 0 72 144)
      (some (RenderedImage.mk 100 100 [] [])))
    (RenderedImage.mk 100 100 [] [])
    (by intro q hq; rw [List.mem_singleton] at hq; subst hq; rfl) rfl

/-- Rounding an integer value to 3 decimals returns it unchanged. -/
theorem pyRound_intCast (n : ℤ) : pyRound ((n : ℚ)) = n := by
  unfold pyRound
  rw [Int.floor_intCast]
  rw [if_pos]
  rw [sub_self]
  norm_num

theorem round3_intCast (n : ℤ) : round3 ((n : ℚ)) = (n : ℚ) := by
  unfold round3
  have h : ((n : ℚ) * 1000) = ((n * 1000 : ℤ) : ℚ) := by push_cast; ring
  rw [h, pyRound_intCast]
  push_cast
  exact mul_div_cancel_right₀ _ (by norm_num)

/-- The loop leaves the DPI state and page list untouched when no page
decodes. -/
theorem pdfLoop_all_skipped (P : DetectionParams) :
    ∀ (pgs : List PdfPage), (∀ q ∈ pgs, q.rendered = none) →
      ∀ (i : ℕ) (d : Option Dpi), pdfLoop P i pgs d = (d, []) := by
  intro pgs
  induction pgs with
  | nil => intro _ i d; rfl
  | cons q rest ih =>
    intro h i d
    have hq : q.rendered = none := h q (List.mem_cons_self q rest)
    have h' : ∀ q' ∈ rest, q'.rendered = none :=
      fun q' hq' => h q' (List.mem_cons_of_mem q hq')
    simp only [pdfLoop, hq]
    exact ih h' (i + 1) d

/-- C10: when no page yields a computed DPI (every page fails to decode
or the document is empty), process_pdf still succeeds and the emitted
document carries the fallback DPI of exactly 144 on both axes. -/
theorem pdf_no_dpi_default (P : DetectionParams) (pgs : List PdfPage)
    (h : ∀ q ∈ pgs, q.rendered = none) :
    process_pdf P (some pgs) = (true, some (buildDocumentResult P pgs)) ∧
    (buildDocumentResult P pgs).dpi = { x := 144, y := 144 } := by
  refine ⟨rfl, ?_⟩
  have h144 : round3 ((144 : ℚ)) = 144 := by
    have h0 := round3_intCast 144
    norm_num at h0
    exact h0
  simp only [buildDocumentResult]
  rw [pdfLoop_all_skipped P pgs h 0 none]
  simp [Option.getD, h144]

theorem pdf_no_dpi_default_witness :
    process_pdf (DetectionParams.mk (1/5) 10 (1/1000) (1/2)) (some []) =
        (true, some (buildDocumentResult
          (DetectionParams.mk (1/5) 10 (1/1000) (1/2)) [])) ∧
      (buildDocumentResult (DetectionParams.mk (1/5) 10 (1/1000) (1/2)) []).dpi =
        { x := 144, y := 144 } :=
  pdf_no_dpi_default (DetectionParams.mk (1/5) 10 (1/1000) (1/2)) []
    (fun q hq => absurd hq (List.not_mem_nil q))

/-- C8: when the PDF cannot be opened, process_pdf signals failure and
produces no output artifact at all, whatever the parameters and the
installed progress callback. -/
theorem pdf_open_failure {E : Type} (P : DetectionParams)
    (cb : ℕ → ℕ → Except E Unit) :
    process_pdf P none = (false, none) ∧
    process_pdf_run P cb none = .ok (false, none, []) :=
  ⟨rfl, rfl⟩

/-- The callback-threaded page loop never aborts and computes the same
state as the pure loop, together with one trace entry per decoded
page. -/
theorem pdfLoopRun_eq {E : Type} (P : DetectionParams)
    (cb : ℕ → ℕ → Except E Unit) (N : ℕ) :
    ∀ (pgs : List PdfPage) (i : ℕ) (d : Option Dpi),
      pdfLoopRun P cb N i pgs d =
        .ok ((pdfLoop P i pgs d).1, (pdfLoop P i pgs d).2,
          pdfTraceLoop N i pgs) := by
  intro pgs
  induction pgs with
  | nil => intro i d; rfl
  | cons pg rest ih =>
    intro i d
    cases hrend : pg.rendered with
    | none =>
      simp only [pdfLoopRun, pdfLoop, pdfTraceLoop, hrend]
      exact ih (i + 1) d
    | some img =>
      simp only [pdfLoopRun, pdfLoop, pdfTraceLoop, hrend, tryCall_ok]
      rw [ih (i + 1) _]
      by_cases hl : pageLines P img = [] ∧ pageRects P img = []
      · simp only [if_pos hl]
      · simp only [if_neg hl]

/-- C7 amended: for PDF and single-image runs, the progress callback is
invoked after the document opens, after each decoded unit, and at
completion, with the unit position and total count; every exception the
callback raises is swallowed, so the run always returns normally and
its result does not depend on the callback.  (process_folder accepts no
callback and emits no progress calls.) -/
theorem progress_calls {E : Type} (P : DetectionParams)
    (cb : ℕ → ℕ → Except E Unit) (doc : Option (List PdfPage))
    (file : ImageFile) :
    process_pdf_run P cb doc =
      .ok ((process_pdf P doc).1, (process_pdf P doc).2, pdfTrace doc) ∧
    process_single_image_run P cb file =
      .ok ((process_single_image P file).1, (process_single_image P file).2,
        imageTrace file) := by
  constructor
  · cases doc with
    | none => rfl
    | some pgs =>
      simp only [process_pdf_run, process_pdf, pdfTrace, tryCall_ok]
      rw [pdfLoopRun_eq P cb pgs.length pgs 0 none]
      rfl
  · cases hload : file.load with
    | none =>
      simp only [process_single_image_run, process_single_image, imageTrace, hload]
    | some img =>
      simp only [process_single_image_run, process_single_image, imageTrace,
        hload, tryCall_ok]

/-- C7 counterexample: a folder run that successfully processes one
image performs no progress-callback invocation at all — process_folder
has no callback parameter, so the claim fails for folder runs. -/
theorem folder_no_progress_cex :
    (process_folder (DetectionParams.mk (1/5) 10 (1/1000) (1/2))
        [FolderEntry.mk ("a.png")
          (ImageFile.mk (some (LoadedImage.mk 10 10 [] [])) 0 0)]).1 = true ∧
    (process_folder (DetectionParams.mk (1/5) 10 (1/1000) (1/2))
        [FolderEntry.mk ("a.png")
          (ImageFile.mk (some (LoadedImage.mk 10 10 [] [])) 0 0)]).2.2 = [] :=
  ⟨rfl, rfl⟩

end Skalu
